import Mathlib

/-!
Verification development for the goke task runner.

Shallow embedding of the repository's Go sources:
* `src/internal/util.go`   — the command tokenizer `ParseCommandLine`;
* `src/unnamed/part_001`   — the config parser (`parseSystemCmd`,
  `replaceEnvironmentVariables`, `setEnvVariables`, `expandFilePaths`,
  `parseTasks`, `parseGlobal`, `Bootstrap`);
* `src/internal/executor.go` — the dispatch engine (`dispatchTask`,
  `runSysOrRecurse`, `shouldDispatch`, `shouldDispatchRoutine`,
  `checkAndDispatch`).

OS facilities (stat, process spawning, environment expansion, globbing)
are modelled as explicit oracle functions passed to the definitions;
machine integers (Unix mtimes, `int64`) are modelled as `Int`.
-/

namespace Goke

/-! ### Association-list helpers

Go maps (`map[string]string`, `map[string]int64`, `map[string]Task`) are
modelled as association lists with update-or-insert write and first-match
lookup.  Iteration order of Go maps is unspecified; the model fixes the
list order (the claims checked below are insensitive to it).  -/

def lookupA {α : Type} : List (String × α) → String → Option α
  | [], _ => none
  | (k1, v1) :: rest, k => if k1 = k then some v1 else lookupA rest k

def setA {α : Type} : List (String × α) → String → α → List (String × α)
  | [], k, v => [(k, v)]
  | (k1, v1) :: rest, k, v =>
      if k1 = k then (k1, v) :: rest else (k1, v1) :: setA rest k v

/-- Go `os.Getenv`: missing variables read as the empty string. -/
def getenvD (env : List (String × String)) (k : String) : String :=
  (lookupA env k).getD ""

/-! ### Command tokenizer — `ParseCommandLine` (src/internal/util.go:117-181)

The Go function iterates over the bytes of the command, with mutable
state `args`, `state ∈ {"start","arg","quotes"}`, `current`, `quote`,
`escapeNext`.  We model one loop iteration as `pclStep` and the loop as
`pclScan` (claims involve ASCII inputs, where Go's byte iteration agrees
with `Char` iteration).  Note the source initialises `escapeNext := true`.  -/

def dquoteChar : Char := Char.ofNat 34

def squoteChar : Char := Char.ofNat 39

def bslashChar : Char := Char.ofNat 92

inductive PState where
  | start : PState
  | arg : PState
  | quotes : PState
deriving DecidableEq

structure ScanSt where
  args : List String
  state : PState
  current : String
  quote : Char
  escapeNext : Bool
deriving DecidableEq

def pclStep (s : ScanSt) (c : Char) : ScanSt :=
  if s.state = PState.quotes then
    if c ≠ s.quote then
      { s with current := s.current.push c }
    else
      { s with args := s.args ++ [s.current], current := "", state := PState.start }
  else if s.escapeNext then
    { s with current := s.current.push c, escapeNext := false }
  else if c = bslashChar then
    { s with escapeNext := true }
  else if c = dquoteChar ∨ c = squoteChar then
    { s with state := PState.quotes, quote := c }
  else if s.state = PState.arg then
    if c = ' ' ∨ c = '\t' then
      { s with args := s.args ++ [s.current], current := "", state := PState.start }
    else
      { s with current := s.current.push c }
  else
    if c ≠ ' ' ∧ c ≠ '\t' then
      { s with state := PState.arg, current := s.current.push c }
    else
      s

def pclScan : ScanSt → List Char → ScanSt
  | s, [] => s
  | s, c :: cs => pclScan (pclStep s c) cs

/-- Initial scanner state of the source: `state = "start"`, `quote = "\""`,
and crucially `escapeNext = true`. -/
def pclInit : ScanSt := ⟨[], PState.start, "", dquoteChar, true⟩

/-- Go `ParseCommandLine`: tokenize the command; an input ending inside a
quoted region yields the `MalformedCommand` error. -/
def ParseCommandLine (command : String) : Except String (List String) :=
  let s := pclScan pclInit command.data
  if s.state = PState.quotes then
    Except.error ("unclosed quote in command: " ++ command)
  else if s.current ≠ "" then
    Except.ok (s.args ++ [s.current])
  else
    Except.ok s.args

def exceptIsError {ε α : Type} : Except ε α → Bool
  | Except.error _ => true
  | Except.ok _ => false

/-! Claim-side predicate for C8: "a quote is opened and never closed",
honouring the tokenizer's escape rules (the first character of the whole
input is consumed as escaped, a backslash escapes the next character
outside quotes, and inside quotes only the matching quote character
closes the region). -/

def openQuoteAfter : List Char → Bool → Option Char → Option Char
  | [], _, q => q
  | c :: cs, esc, q =>
      match q with
      | some qc =>
          if c = qc then openQuoteAfter cs esc none
          else openQuoteAfter cs esc (some qc)
      | none =>
          if esc then openQuoteAfter cs false none
          else if c = bslashChar then openQuoteAfter cs true none
          else if c = dquoteChar ∨ c = squoteChar then openQuoteAfter cs false (some c)
          else openQuoteAfter cs false none

def unterminatedQuote (s : String) : Bool :=
  (openQuoteAfter s.data true none).isSome

instance {ε α : Type} [DecidableEq ε] [DecidableEq α] : DecidableEq (Except ε α)
  | Except.ok a, Except.ok b => by
      cases h : decide (a = b) with
      | true => exact Decidable.isTrue (by simp_all)
      | false => exact Decidable.isFalse (by simp_all)
  | Except.ok _, Except.error _ => Decidable.isFalse (by simp)
  | Except.error _, Except.ok _ => Decidable.isFalse (by simp)
  | Except.error a, Except.error b => by
      cases h : decide (a = b) with
      | true => exact Decidable.isTrue (by simp_all)
      | false => exact Decidable.isFalse (by simp_all)

/-! ### String utilities used by the parser and executor

`stringReplace` models Go `strings.Replace(s, old, new, -1)`: all
non-overlapping occurrences, scanned left to right.  `joinSpace` models
`strings.Join(xs, " ")`; `trimString` models `strings.TrimSpace` (ASCII
whitespace suffices for the inputs considered here). -/

def replaceAllFuel (old new : List Char) : Nat → List Char → List Char
  | _, [] => []
  | 0, s => s
  | fuel + 1, c :: rest =>
      if old ≠ [] ∧ old.isPrefixOf (c :: rest) then
        new ++ replaceAllFuel old new fuel (List.drop (old.length - 1) rest)
      else
        c :: replaceAllFuel old new fuel rest

/-- Every recursive step of the scan consumes at least one character, so
fuel equal to the length of the scanned text makes `replaceAllFuel`
total while keeping it structurally recursive. -/
def replaceAll (old new s : List Char) : List Char :=
  replaceAllFuel old new s.length s

def stringReplace (s old new : String) : String :=
  String.mk (replaceAll old.data new.data s.data)

def joinSpace : List String → String
  | [] => ""
  | [s] => s
  | s :: rest => s ++ " " ++ joinSpace rest

def isSpaceChar (c : Char) : Bool :=
  c = ' ' ∨ c = '\t' ∨ c = '\n' ∨ c = '\r'

def trimString (s : String) : String :=
  String.mk (((s.data.dropWhile isSpaceChar).reverse.dropWhile isSpaceChar).reverse)

/-! ### System-command substitution token — `parseSystemCmd`
(src/unnamed/part_001:176-184)

The source matches the regular expression `\$\((.+)\)` (Go RE2:
leftmost match, greedy `.+`, where `.` excludes the newline) and returns
the whole matched text together with the captured group.  `sysCmdScan`
finds the leftmost position at which `$(` is followed, within the
newline-free region, by a closing `)` with at least one character in
between, and returns the capture extending to the last such `)` (the
greedy match). -/

def lastCloseIdx : List Char → Option Nat
  | [] => none
  | c :: cs =>
      match lastCloseIdx cs with
      | some k => some (k + 1)
      | none => if c = ')' then some 0 else none

def sysCmdScan : List Char → Option (List Char)
  | [] => none
  | c :: rest =>
      if c = '$' then
        match rest with
        | '(' :: body =>
            let pre := body.takeWhile (fun ch => ch ≠ '\n')
            match lastCloseIdx pre with
            | some k => if 1 ≤ k then some (pre.take k) else sysCmdScan rest
            | none => sysCmdScan rest
        | _ => sysCmdScan rest
      else sysCmdScan rest

/-- Go `Parser.parseSystemCmd`: the raw `$(...)` text and the inner
command of the first regex match, or a pair of empty strings. -/
def parseSystemCmd (str : String) : String × String :=
  match sysCmdScan str.data with
  | some inner => (String.mk ('$' :: '(' :: (inner ++ [')'])), String.mk inner)
  | none => ("", "")

/-- Go `Parser.replaceEnvironmentVariables` (src/unnamed/part_001:186-195):
the `$(NAME)` token is replaced by `os.Getenv(NAME)` — an environment
lookup, not the execution of a process. -/
def replaceEnvironmentVariables (getenv : String → String) (str : String) : String :=
  let raw := (parseSystemCmd str).1
  let env := (parseSystemCmd str).2
  if raw ≠ "" ∧ env ≠ "" then stringReplace str raw (getenv env) else str

/-- Follows the spec's words, for comparison with
`replaceEnvironmentVariables`: "resolve any embedded system-command
substitution token of the form `$(<command>)` by running `<command>` ...,
replacing the token with the trimmed standard-output text".  `runOut`
is the standard output of running its argument through the OS. -/
def resolveSubstitutionSpec (runOut : String → String) (str : String) : String :=
  let raw := (parseSystemCmd str).1
  let cmd := (parseSystemCmd str).2
  if raw ≠ "" ∧ cmd ≠ "" then stringReplace str raw (trimString (runOut cmd)) else str

/-! ### Data model (src/unnamed/part_001:15-45) -/

structure Task where
  name : String
  files : List String
  run : List String
  env : List (String × String)
deriving DecidableEq

structure Events where
  beforeEachRun : List String
  afterEachRun : List String
  beforeEachTask : List String
  afterEachTask : List String
deriving DecidableEq

/-- The `Global.Shared` contents of the config: the `global.environment`
mapping and the `events` hook lists. -/
structure GlobalCfg where
  environment : List (String × String)
  events : Events
deriving DecidableEq

/-- OS facilities the parser calls, as oracles: `expand` is
`os.ExpandEnv` (given the current environment-reading function), `exec`
is `exec.Command(argv[0], argv[1:]...).Output()`, `glob` is
`filepath.Glob`, `fileExists` the file-existence helper. -/
structure OSModel where
  expand : (String → String) → String → String
  exec : List String → Except String String
  glob : String → Except String (List String)
  fileExists : String → Bool

/-- The parser's mutable fields relevant to the core (`Tasks`,
`FilePaths`, the embedded `Global`), together with the modelled process
environment that `os.Setenv` writes and `os.Getenv` reads. -/
structure ParserState where
  tasks : List (String × Task)
  filePaths : List String
  global : GlobalCfg
  env : List (String × String)
deriving DecidableEq

/-- Go `Parser.setEnvVariables` (src/unnamed/part_001:246-273): for each
entry, if the value holds no `$(...)` token it is stored and exported
verbatim; otherwise the inner command is env-expanded, tokenized with
`ParseCommandLine`, run through the OS, and its trimmed output stored and
exported.  The first failure aborts with that error (the partially built
result map is discarded by both callers); environment writes made before
the failure persist. -/
def setEnvVariables (os : OSModel) :
    List (String × String) → List (String × String) →
    Except String (List (String × String)) × List (String × String)
  | env, [] => (Except.ok [], env)
  | env, (k, v) :: rest =>
      let cmd := (parseSystemCmd v).2
      if cmd = "" then
        match setEnvVariables os (setA env k v) rest with
        | (Except.ok retVars, env2) => (Except.ok ((k, v) :: retVars), env2)
        | (Except.error e, env2) => (Except.error e, env2)
      else
        match ParseCommandLine (os.expand (getenvD env) cmd) with
        | Except.error e => (Except.error e, env)
        | Except.ok splitCmd =>
            match os.exec splitCmd with
            | Except.error e => (Except.error e, env)
            | Except.ok out =>
                let outStr := trimString out
                match setEnvVariables os (setA env k outStr) rest with
                | (Except.ok retVars, env2) => (Except.ok ((k, outStr) :: retVars), env2)
                | (Except.error e, env2) => (Except.error e, env2)

/-- Go `Parser.expandFilePaths` (src/unnamed/part_001:198-215). -/
def expandFilePaths (os : OSModel) (file : String) : Except String (List String) :=
  if file.contains '*' then
    os.glob file
  else if os.fileExists file then
    Except.ok [file]
  else
    Except.ok []

/-- The per-task `files` loop of `Parser.parseTasks`
(src/unnamed/part_001:116-127): each pattern is env-substituted in place
and then glob-expanded, accumulating the expanded paths. -/
def processFiles (os : OSModel) (getenv : String → String) :
    List String → Except String (List String)
  | [] => Except.ok []
  | f :: fs =>
      match expandFilePaths os (replaceEnvironmentVariables getenv f) with
      | Except.error e => Except.error e
      | Except.ok expanded =>
          match processFiles os getenv fs with
          | Except.error e => Except.error e
          | Except.ok restPaths => Except.ok (expanded ++ restPaths)

/-- The body of `Parser.parseTasks` (src/unnamed/part_001:106-152) after
YAML decoding, iterating over the task list: expand the `files`
patterns, interpolate `{FILES}` and env-substitute each `run` entry, and
resolve a non-empty task `env` through `setEnvVariables` (which writes
the process environment seen by later tasks).  Returns the rebuilt task
table and the accumulated `FilePaths`, or the first error. -/
def parseTasksGo (os : OSModel) :
    List (String × String) → List (String × Task) →
    Except String (List (String × Task) × List String) × List (String × String)
  | env, [] => (Except.ok ([], []), env)
  | env, (k, c) :: rest =>
      match processFiles os (getenvD env) c.files with
      | Except.error e => (Except.error e, env)
      | Except.ok filePaths =>
          let run2 := c.run.map (fun r =>
            replaceEnvironmentVariables (getenvD env)
              (stringReplace r "{FILES}" (joinSpace filePaths)))
          match (if c.env.isEmpty then (Except.ok c.env, env)
                 else setEnvVariables os env c.env) with
          | (Except.error e, env2) => (Except.error e, env2)
          | (Except.ok vars, env2) =>
              match parseTasksGo os env2 rest with
              | (Except.error e, env3) => (Except.error e, env3)
              | (Except.ok (ts, allPaths), env3) =>
                  (Except.ok ((k, Task.mk k filePaths run2 vars) :: ts,
                              filePaths ++ allPaths), env3)

/-- Go `Parser.parseTasks`: `yamlTasks` is the outcome of
`yaml.Unmarshal` on the config text.  On success the parser's `Tasks`
and `FilePaths` fields are set; on failure they are left untouched. -/
def parseTasks (os : OSModel) (yamlTasks : Except String (List (String × Task)))
    (p : ParserState) : Except String Unit × ParserState :=
  match yamlTasks with
  | Except.error e => (Except.error e, p)
  | Except.ok tasks =>
      match parseTasksGo os p.env tasks with
      | (Except.error e, env2) => (Except.error e, { p with env := env2 })
      | (Except.ok (ts, allPaths), env2) =>
          (Except.ok (), { p with env := env2, tasks := ts, filePaths := allPaths })

/-- Go `Parser.parseGlobal` (src/unnamed/part_001:156-172): when
`setEnvVariables` fails for `global.environment`, the source executes
`return nil` — it reports success and skips the assignment to
`p.Global`, which keeps its previous (zero) value. -/
def parseGlobal (os : OSModel) (yamlGlobal : Except String GlobalCfg)
    (p : ParserState) : Except String Unit × ParserState :=
  match yamlGlobal with
  | Except.error e => (Except.error e, p)
  | Except.ok g =>
      match setEnvVariables os p.env g.environment with
      | (Except.error _, env2) => (Except.ok (), { p with env := env2 })
      | (Except.ok vars, env2) =>
          (Except.ok (), { p with env := env2, global := GlobalCfg.mk vars g.events })

/-- Outcome of `Parser.Bootstrap`: `log.Fatal` terminates the process
(`fatal`), otherwise the parser finishes with its final state. -/
inductive BootResult where
  | fatal : String → BootResult
  | finished : ParserState → BootResult
deriving DecidableEq

def isFatal : BootResult → Bool
  | BootResult.fatal _ => true
  | BootResult.finished _ => false

/-- The cache-write tail of `Parser.Bootstrap` (src/unnamed/part_001:96-101):
`writeResult` is the outcome of writing the serialized parser to the
temp file. -/
def bootstrapAfterTasks (quiet : Bool) (writeResult : Except String Unit)
    (p : ParserState) : BootResult :=
  match writeResult with
  | Except.error e => if ¬quiet then BootResult.fatal e else BootResult.finished p
  | Except.ok _ => BootResult.finished p

/-- The `parseTasks` step of `Parser.Bootstrap` (src/unnamed/part_001:91-94):
`log.Fatal` fires only when an error occurred AND quiet mode is off;
with quiet mode on, the error is discarded and Bootstrap continues. -/
def bootstrapAfterGlobal (os : OSModel) (quiet : Bool)
    (yamlTasks : Except String (List (String × Task)))
    (writeResult : Except String Unit) (p : ParserState) : BootResult :=
  match parseTasks os yamlTasks p with
  | (Except.error e, p2) =>
      if ¬quiet then BootResult.fatal e else bootstrapAfterTasks quiet writeResult p2
  | (Except.ok _, p2) => bootstrapAfterTasks quiet writeResult p2

/-- Go `Parser.Bootstrap` (src/unnamed/part_001:80-102):
`cachedParserString` models the package-level `parserString` (non-empty
exactly when the parse cache was hit, in which case nothing is parsed). -/
def Bootstrap (os : OSModel) (quiet : Bool) (cachedParserString : String)
    (yamlGlobal : Except String GlobalCfg)
    (yamlTasks : Except String (List (String × Task)))
    (writeResult : Except String Unit) (p : ParserState) : BootResult :=
  if cachedParserString ≠ "" then BootResult.finished p
  else
    match parseGlobal os yamlGlobal p with
    | (Except.error e, p1) =>
        if ¬quiet then BootResult.fatal e
        else bootstrapAfterGlobal os quiet yamlTasks writeResult p1
    | (Except.ok _, p1) => bootstrapAfterGlobal os quiet yamlTasks writeResult p1

/-! ### Dispatch engine (src/internal/executor.go)

The observable behaviour of a dispatch is the ordered list of command
strings handed to `runSysCommand` (the OS-process spawns) together with
the error of the first failing step, if any: `Res`.  `exec` is the
oracle for `runSysCommand`'s result on a command string (tokenization,
env expansion and the process run combined); a command string that names
a task recurses instead of spawning.

Recursion through task references is unbounded in Go (a cyclic config
loops forever); the model adds a fuel parameter consumed exactly when a
run entry recurses into another task, so any finite behaviour of the
source is the behaviour of the model at every sufficiently large fuel. -/

abbrev Res := List String × Option String

/-- Sequencing of two dispatch steps: the Go pattern
`if err := ...; err != nil { return err }` — the second step runs only
when the first succeeded. -/
def seqRes (a b : Res) : Res :=
  match a with
  | (tr, some e) => (tr, some e)
  | (tr, none) => (tr ++ b.1, b.2)

structure ExecEnv where
  tasks : List (String × Task)
  events : Events
  exec : String → Except String String
  force : Bool

/-- Go map lookup `e.parser.Tasks[cmd]` used by `runSysOrRecurse`. -/
def taskLookup (tasks : List (String × Task)) (cmd : String) : Option Task :=
  lookupA tasks cmd

/-- One command string of `Executor.runSysOrRecurse`
(src/internal/executor.go:223-244), parameterised by the recursive
dispatch used for a task reference: a declared task name recurses with
`initialRun = false`; anything else is handed to `runSysCommand`. -/
def runSysOne (E : ExecEnv) (recurse : Task → Res) (cmd : String) : Res :=
  match taskLookup E.tasks cmd with
  | some t => recurse t
  | none =>
      match E.exec cmd with
      | Except.ok _ => ([cmd], none)
      | Except.error e => ([cmd], some e)

/-- A `for _, cmd := range list { runSysOrRecurse(cmd) or return }` loop
of `Executor.dispatchTask`. -/
def runCmdListAux (run1 : String → Res) : List String → Res
  | [] => ([], none)
  | c :: cs => seqRes (run1 c) (runCmdListAux run1 cs)

/-- The `for _, mainCmd := range task.Run` loop of
`Executor.dispatchTask` (src/internal/executor.go:191-211): the
`before_each_run` and `after_each_run` hook loops around each command
are guarded by `initialRun`. -/
def runMainLoopAux (run1 : String → Res) (beforeHooks afterHooks : List String)
    (initialRun : Bool) : List String → Res
  | [] => ([], none)
  | c :: cs =>
      seqRes (if initialRun then runCmdListAux run1 beforeHooks else ([], none))
        (seqRes (run1 c)
          (seqRes (if initialRun then runCmdListAux run1 afterHooks else ([], none))
            (runMainLoopAux run1 beforeHooks afterHooks initialRun cs)))

/-- The body of `Executor.dispatchTask` (src/internal/executor.go:178-220):
the `before_each_task` loop is guarded by `initialRun`, but the final
`after_each_task` loop is NOT — it runs on every dispatch, nested ones
included. -/
def dispatchBody (E : ExecEnv) (run1 : String → Res) (task : Task)
    (initialRun : Bool) : Res :=
  seqRes (if initialRun then runCmdListAux run1 E.events.beforeEachTask else ([], none))
    (seqRes (runMainLoopAux run1 E.events.beforeEachRun E.events.afterEachRun
              initialRun task.run)
      (runCmdListAux run1 E.events.afterEachTask))

/-- Go `Executor.dispatchTask`, with fuel bounding the depth of
task-reference recursion. -/
def dispatchTask (E : ExecEnv) : Nat → Task → Bool → Res
  | 0, _, _ => ([], some "recursion limit")
  | fuel + 1, task, initialRun =>
      dispatchBody E (runSysOne E (fun t => dispatchTask E fuel t false)) task initialRun

/-- Go `Executor.runSysOrRecurse` at recursion budget `fuel`. -/
def runSysOrRecurse (E : ExecEnv) (fuel : Nat) (cmd : String) : Res :=
  runSysOne E (fun t => dispatchTask E fuel t false) cmd

/-! ### Change Cache (Lockfile) -/

/-- Modelled from the spec: the Change Cache (`Lockfile`) implementation
is not under `src/` — only its call sites in `executor.go` are.  Per
§4.2 of the spec it stores, for the active project, a mapping from file
path to the last-observed Unix modification timestamp. -/
structure Lockfile where
  timestamps : List (String × Int)
deriving DecidableEq

/-- Modelled from the spec: `updateTimestamps(files)` "sets the stored
timestamp for each given path to that path's current on-disk
modification time".  `stat` is the oracle for a file's current mtime;
a path whose stat fails is left unchanged. -/
def UpdateTimestampsForFiles (stat : String → Except String Int)
    (l : Lockfile) (files : List String) : Lockfile :=
  Lockfile.mk (files.foldl
    (fun ts f =>
      match stat f with
      | Except.ok mt => setA ts f mt
      | Except.error _ => ts)
    l.timestamps)

/-- Modelled from the spec: `currentProjectTimestamps()` returns the
persisted mapping; at its use site (`lockedModTimes[f]`) a missing path
reads as the Go zero value `0`. -/
def GetCurrentProject (l : Lockfile) (f : String) : Int :=
  (lookupA l.timestamps f).getD 0

/-- How the scanning goroutine of `Executor.shouldDispatchRoutine`
terminates: `normal` for the `return`/fall-through paths, `crashed` for
the missing-`return` path after a failed `os.Stat`, where the source
goes on to call `fo.ModTime()` on a nil `FileInfo` (a nil-dereference
panic in the goroutine). -/
inductive ScanExit where
  | normal : ScanExit
  | crashed : ScanExit
deriving DecidableEq

/-- Go `Executor.shouldDispatchRoutine` (src/internal/executor.go:157-174):
the list of values sent on the channel, paired with how the goroutine
ends.  On a stat failure the error is sent but the loop body continues
into the nil dereference. -/
def shouldDispatchRoutine (stat : String → Except String Int)
    (locked : String → Int) : List String → List (Bool × Option String) × ScanExit
  | [] => ([(false, none)], ScanExit.normal)
  | f :: fs =>
      match stat f with
      | Except.error e => ([(false, some e)], ScanExit.crashed)
      | Except.ok modTimeNow =>
          if locked f < modTimeNow then ([(true, none)], ScanExit.normal)
          else shouldDispatchRoutine stat locked fs

/-- The one value `shouldDispatch` receives from the routine's channel:
the first value sent. -/
def firstSend (sends : List (Bool × Option String)) : Bool × Option String :=
  sends.headD (false, none)

/-- Go `Executor.shouldDispatch` (src/internal/executor.go:135-153): a
task without `files` always dispatches; otherwise the decision is the
single value received from the routine, and on a `true` decision the
lockfile timestamps for the task's files are updated immediately —
before any command has run. -/
def shouldDispatch (stat : String → Except String Int) (l : Lockfile)
    (task : Task) : Except String Bool × Lockfile :=
  if task.files.length = 0 then (Except.ok true, l)
  else
    let dispatch := firstSend (shouldDispatchRoutine stat (GetCurrentProject l) task.files).1
    match dispatch.2 with
    | some e => (Except.error e, l)
    | none =>
        if dispatch.1 then (Except.ok true, UpdateTimestampsForFiles stat l task.files)
        else (Except.ok false, l)

/-- Go `Executor.checkAndDispatch` (src/internal/executor.go:107-120):
returns whether the task dispatched (or the first error), the resulting
lockfile, and the trace of commands spawned by the dispatch. -/
def checkAndDispatch (E : ExecEnv) (stat : String → Except String Int)
    (fuel : Nat) (l : Lockfile) (task : Task) :
    Except String Bool × Lockfile × List String :=
  match shouldDispatch stat l task with
  | (Except.error e, l1) => (Except.error e, l1, [])
  | (Except.ok sd, l1) =>
      if sd || E.force then
        match dispatchTask E fuel task true with
        | (tr, some e) => (Except.error e, l1, tr)
        | (tr, none) => (Except.ok (sd || E.force), l1, tr)
      else
        (Except.ok false, l1, [])

/-! ## Concrete instances used by counterexamples and witnesses -/

/-- An exec oracle where every command succeeds with empty output. -/
def execOkAll : String → Except String String := fun _ => Except.ok ""

def tC6 : Task := Task.mk "six" [] ["c1", "c2"] []

def E6 : ExecEnv :=
  ExecEnv.mk [("six", tC6)] (Events.mk ["b"] ["a"] ["t1"] ["t2"]) execOkAll false

/-- A task whose single run entry is a plain command. -/
def tU : Task := Task.mk "greet" [] ["u1"] []

/-- A task whose single run entry names the task `"greet"`. -/
def tT : Task := Task.mk "top" [] ["greet"] []

def E2 : ExecEnv :=
  ExecEnv.mk [("greet", tU), ("top", tT)] (Events.mk [] [] [] ["t2"]) execOkAll false

def statC1 : String → Except String Int :=
  fun f => if f = "main.go" then Except.ok 5 else Except.error "ENOENT"

def lockC1 : Lockfile := Lockfile.mk [("main.go", 3)]

def taskC1 : Task := Task.mk "build" ["main.go"] ["boom"] []

/-- An executor whose every spawned command fails. -/
def EC1 : ExecEnv :=
  ExecEnv.mk [("build", taskC1)] (Events.mk [] [] [] [])
    (fun _ => Except.error "exit status 1") false

def statC4 : String → Except String Int := fun _ => Except.error "ENOENT"

def taskC4 : Task := Task.mk "t" ["a.txt"] ["x"] []

def statC5 : String → Except String Int := fun _ => Except.ok 5

def lockC5 : Lockfile := Lockfile.mk [("a", 3)]

def taskC5 : Task := Task.mk "t" ["a"] ["x"] []

/-- An OS oracle whose every spawned process fails with `exit status 1`. -/
def osT : OSModel :=
  OSModel.mk (fun _ s => s) (fun _ => Except.error "exit status 1")
    (fun _ => Except.ok []) (fun _ => false)

def p0 : ParserState :=
  ParserState.mk [] [] (GlobalCfg.mk [] (Events.mk [] [] [] [])) []

/-- A config whose one task carries an `env` entry with a system-command
substitution (which fails under `osT`). -/
def yamlT7 : Except String (List (String × Task)) :=
  Except.ok [("t", Task.mk "" [] ["x"] [("K", "$(boom)")])]

def yamlG7 : Except String GlobalCfg :=
  Except.ok (GlobalCfg.mk [] (Events.mk [] [] [] []))

/-- A `global` section whose environment mapping carries a failing
system-command substitution, next to non-empty hook lists. -/
def g10 : GlobalCfg := GlobalCfg.mk [("K", "$(boom)")] (Events.mk ["h"] [] [] [])

/-- A getenv oracle mapping `FOO` to `envval`. -/
def getenvC3 : String → String := fun n => if n = "FOO" then "envval" else ""

/-- A process-output oracle answering `cmdout` for every command. -/
def outC3 : String → String := fun _ => "cmdout"

def taskC3 : Task := Task.mk "" [] ["echo $(FOO)"] []

/-! ## Supporting lemmas -/

/-- Abstraction of a scanner state to the claim-side quote tracker: the
currently open quote character, if any. -/
def absQ (st : ScanSt) : Option Char :=
  if st.state = PState.quotes then some st.quote else none

lemma openQuoteAfter_step (st : ScanSt) (c : Char) (cs : List Char) :
    openQuoteAfter (c :: cs) st.escapeNext (absQ st) =
      openQuoteAfter cs (pclStep st c).escapeNext (absQ (pclStep st c)) := by
  by_cases hq : st.state = PState.quotes
  · by_cases hc : c = st.quote <;>
      simp [openQuoteAfter, absQ, pclStep, hq, hc]
  · by_cases he : st.escapeNext
    · simp [openQuoteAfter, absQ, pclStep, hq, he]
    · by_cases hb : c = bslashChar
      · simp [openQuoteAfter, absQ, pclStep, hq, he, hb]
      · by_cases hqc : c = dquoteChar ∨ c = squoteChar
        · simp [openQuoteAfter, absQ, pclStep, hq, he, hb, hqc]
        · by_cases ha : st.state = PState.arg
          · by_cases hsp : c = ' ' ∨ c = '\t' <;>
              simp [openQuoteAfter, absQ, pclStep, hq, he, hb, hqc, ha, hsp]
          · by_cases hsp : c ≠ ' ' ∧ c ≠ '\t' <;>
              simp [openQuoteAfter, absQ, pclStep, hq, he, hb, hqc, ha, hsp]

lemma pclScan_absQ : ∀ (cs : List Char) (st : ScanSt),
    openQuoteAfter cs st.escapeNext (absQ st) = absQ (pclScan st cs)
  | [], _ => rfl
  | c :: cs, st => by
      rw [openQuoteAfter_step, pclScan]
      exact pclScan_absQ cs (pclStep st c)

/-! ## Claims -/

/-- Claim C8: the tokenizer splits on unquoted whitespace honouring
single and double quotes, so `tokenize("echo \"a b\" c")` returns
`["echo", "a b", "c"]`; and it fails with the `MalformedCommand` error
exactly on the inputs in which a quote is opened and never closed. -/
theorem c8_tokenizer_quotes_and_malformed :
    ParseCommandLine "echo \"a b\" c" = Except.ok ["echo", "a b", "c"] ∧
    ∀ s : String, exceptIsError (ParseCommandLine s) = unterminatedQuote s := by
  refine ⟨by decide, fun s => ?_⟩
  have h := pclScan_absQ s.data pclInit
  have hinit : openQuoteAfter s.data true none = absQ (pclScan pclInit s.data) := h
  by_cases hq : (pclScan pclInit s.data).state = PState.quotes
  · simp [ParseCommandLine, hq, exceptIsError, unterminatedQuote, hinit, absQ]
  · by_cases hc : (pclScan pclInit s.data).current ≠ "" <;>
      simp [ParseCommandLine, hq, hc, exceptIsError, unterminatedQuote, hinit, absQ]

/-- Claim C9 (corrected): the source initialises `escapeNext := true`,
so the first character of the whole input — whatever it is — is itself
consumed as an escaped literal and appended to the current token, with
the escape flag then cleared.  A leading backslash is therefore emitted
literally and does not escape the character after it:
`tokenize("\ab") = ["\ab"]`, not `["ab"]`. -/
theorem c9_first_char_consumed_literally :
    (∀ (c : Char) (cs : List Char),
      pclScan pclInit (c :: cs) =
        pclScan (ScanSt.mk [] PState.start (String.mk [c]) dquoteChar false) cs) ∧
    ParseCommandLine "\\ab" = Except.ok ["\\ab"] :=
  ⟨fun _ _ => rfl, by decide⟩

/-- Claim C9, the claim as stated is false: on the input `"\ab"` the
leading backslash is emitted (the output token is `"\ab"`), whereas the
claim predicts that the backslash escapes `a` and is not emitted (output
token `"ab"`). -/
theorem c9_counterexample :
    ParseCommandLine "\\ab" = Except.ok ["\\ab"] ∧
    ParseCommandLine "\\ab" ≠ Except.ok ["ab"] := by
  refine ⟨by decide, by decide⟩

lemma seqRes_nil_ok (b : Res) : seqRes ([], none) b = b := by
  simp [seqRes]

lemma runMainLoopAux_not_initial (run1 : String → Res) (bh ah : List String) :
    ∀ cs : List String, runMainLoopAux run1 bh ah false cs = runCmdListAux run1 cs
  | [] => rfl
  | c :: cs => by
      simp only [runMainLoopAux, runCmdListAux, if_neg Bool.false_ne_true,
        seqRes_nil_ok]
      rw [runMainLoopAux_not_initial run1 bh ah cs]

/-- Claim C2 (corrected): a run entry that names another task `u`
executes `u`'s own run commands — without the `before_each_task`,
`before_each_run` or `after_each_run` hooks — but then executes the
global `after_each_task` hooks again, because the final hook loop of
`dispatchTask` is not guarded by `initialRun`. -/
theorem c2_nested_dispatch_reruns_after_each_task (E : ExecEnv) (f : Nat) (u : Task) :
    dispatchTask E (f + 1) u false =
      seqRes (runCmdListAux (runSysOrRecurse E f) u.run)
        (runCmdListAux (runSysOrRecurse E f) E.events.afterEachTask) := by
  simp only [dispatchTask, dispatchBody, if_neg Bool.false_ne_true, seqRes_nil_ok]
  rw [runMainLoopAux_not_initial]
  rfl

/-- Claim C2, the claim as stated is false: with `after_each_task = ["t2"]`
and tasks `top` (run `["greet"]`) and `greet` (run `["u1"]`), the nested
invocation of `greet` spawns `u1` and then `t2` — not exactly `greet`'s
run commands and nothing else. -/
theorem c2_counterexample :
    runSysOrRecurse E2 2 "greet" = (["u1", "t2"], none) ∧
    runSysOrRecurse E2 2 "greet" ≠ ((["u1"], none) : Res) := by
  refine ⟨by decide, by decide⟩

/-- Claim C6: on a top-level dispatch with `before_each_task = [t1]`,
`before_each_run = [b]`, `after_each_run = [a]`, `after_each_task = [t2]`
and run list `[c1, c2]`, where all six strings are plain commands (not
task names) and all spawns succeed, the spawned commands are exactly
`t1, b, c1, a, b, c2, a, t2` in that order. -/
theorem c6_hook_ordering (E : ExecEnv) (f : Nat) (task : Task)
    (t1 b c1 a c2 t2 o1 o2 o3 o4 o5 o6 : String)
    (hev : E.events = Events.mk [b] [a] [t1] [t2])
    (hrun : task.run = [c1, c2])
    (l1 : taskLookup E.tasks t1 = none) (l2 : taskLookup E.tasks b = none)
    (l3 : taskLookup E.tasks c1 = none) (l4 : taskLookup E.tasks a = none)
    (l5 : taskLookup E.tasks c2 = none) (l6 : taskLookup E.tasks t2 = none)
    (x1 : E.exec t1 = Except.ok o1) (x2 : E.exec b = Except.ok o2)
    (x3 : E.exec c1 = Except.ok o3) (x4 : E.exec a = Except.ok o4)
    (x5 : E.exec c2 = Except.ok o5) (x6 : E.exec t2 = Except.ok o6) :
    dispatchTask E (f + 1) task true = ([t1, b, c1, a, b, c2, a, t2], none) := by
  simp [dispatchTask, dispatchBody, hev, hrun, runMainLoopAux, runCmdListAux,
    runSysOne, l1, l2, l3, l4, l5, l6, x1, x2, x3, x4, x5, x6, seqRes]

/-- Witness for `c6_hook_ordering` at the concrete executor `E6`. -/
theorem c6_witness :
    dispatchTask E6 1 tC6 true = (["t1", "b", "c1", "a", "b", "c2", "a", "t2"], none) :=
  c6_hook_ordering E6 0 tC6 "t1" "b" "c1" "a" "c2" "t2" "" "" "" "" "" ""
    rfl rfl rfl rfl rfl rfl rfl rfl rfl rfl rfl rfl rfl rfl

/-- Claim C1 (corrected): the Change Cache timestamps for a task's files
are written as soon as the dispatch decision comes out `true` — inside
`shouldDispatch`, before any hook or command has run — and the final
lockfile of `checkAndDispatch` is exactly the lockfile produced by that
decision, irrespective of whether the subsequent dispatch succeeds or
fails.  A decision of `false` leaves the cache unchanged. -/
theorem c1_cache_updated_at_decision_time (E : ExecEnv)
    (stat : String → Except String Int) (fuel : Nat) (l : Lockfile) (task : Task) :
    (checkAndDispatch E stat fuel l task).2.1 = (shouldDispatch stat l task).2 ∧
    (task.files ≠ [] → (shouldDispatch stat l task).1 = Except.ok true →
      (shouldDispatch stat l task).2 = UpdateTimestampsForFiles stat l task.files) ∧
    ((shouldDispatch stat l task).1 = Except.ok false →
      (shouldDispatch stat l task).2 = l) := by
  refine ⟨?_, ?_, ?_⟩
  · rcases h : shouldDispatch stat l task with ⟨res, l1⟩
    cases res with
    | error e => simp [checkAndDispatch, h]
    | ok sd =>
        by_cases hf : (sd || E.force) = true
        · rcases hd : dispatchTask E fuel task true with ⟨tr, err⟩
          cases err <;> simp [checkAndDispatch, h, hf, hd]
        · simp [checkAndDispatch, h, hf]
  · intro hne hok
    by_cases h0 : task.files.length = 0
    · exact absurd (List.length_eq_zero.mp h0) hne
    · rcases hd : firstSend (shouldDispatchRoutine stat (GetCurrentProject l)
        task.files).1 with ⟨v, err⟩
      cases err with
      | some e => simp [shouldDispatch, h0, hd] at hok
      | none =>
          cases v with
          | true => simp [shouldDispatch, h0, hd]
          | false => simp [shouldDispatch, h0, hd] at hok
  · intro hfalse
    by_cases h0 : task.files.length = 0
    · simp [shouldDispatch, h0] at hfalse
    · rcases hd : firstSend (shouldDispatchRoutine stat (GetCurrentProject l)
        task.files).1 with ⟨v, err⟩
      cases err with
      | some e => simp [shouldDispatch, h0, hd] at hfalse
      | none =>
          cases v with
          | true => simp [shouldDispatch, h0, hd] at hfalse
          | false => simp [shouldDispatch, h0, hd]

/-- Witness for `c1_cache_updated_at_decision_time`: under `EC1` (whose
task command fails) the final lockfile is the updated one. -/
theorem c1_witness :
    (checkAndDispatch EC1 statC1 1 lockC1 taskC1).2.1 =
      UpdateTimestampsForFiles statC1 lockC1 taskC1.files := by
  have h := c1_cache_updated_at_decision_time EC1 statC1 1 lockC1 taskC1
  rw [h.1, h.2.1 (by decide) (by decide)]

/-- Claim C1, the claim as stated is false: the task command `boom`
fails (the dispatch returns its error), yet the Change Cache entry for
`main.go` was advanced from the stored `3` to the on-disk `5`, so the
task would not be considered "needs dispatch" on the next invocation. -/
theorem c1_counterexample :
    checkAndDispatch EC1 statC1 1 lockC1 taskC1 =
      (Except.error "exit status 1", Lockfile.mk [("main.go", 5)], ["boom"]) ∧
    Lockfile.mk [("main.go", 5)] ≠ lockC1 := by
  refine ⟨by decide, by decide⟩

/-- Claim C4 (code bug, evaluated at the failing input): with a file
whose stat fails, the scanning goroutine sends the `IOError` — which the
decision in `shouldDispatch` duly surfaces — but, lacking a `return`
after the send, it continues the loop body and dereferences the nil
`FileInfo` instead of stopping the scan. -/
theorem c4_stat_error_sent_but_scan_continues :
    shouldDispatchRoutine statC4 (GetCurrentProject (Lockfile.mk [])) ["a.txt"] =
      ([(false, some "ENOENT")], ScanExit.crashed) ∧
    (shouldDispatch statC4 (Lockfile.mk []) taskC4).1 = Except.error "ENOENT" := by
  refine ⟨by decide, by decide⟩

lemma routine_first_send (stat : String → Except String Int) (locked : String → Int) :
    ∀ files : List String, (∀ f ∈ files, ∃ t, stat f = Except.ok t) →
      (firstSend (shouldDispatchRoutine stat locked files).1 = (true, none) ∨
       firstSend (shouldDispatchRoutine stat locked files).1 = (false, none)) ∧
      (firstSend (shouldDispatchRoutine stat locked files).1 = (true, none) ↔
        ∃ f ∈ files, ∃ t, stat f = Except.ok t ∧ locked f < t)
  | [], _ => by simp [shouldDispatchRoutine, firstSend]
  | f :: fs, h => by
      rcases h f (List.mem_cons_self f fs) with ⟨t, ht⟩
      by_cases hlt : locked f < t
      · refine ⟨Or.inl ?_, ?_⟩
        · simp [shouldDispatchRoutine, firstSend, ht, hlt]
        · simp only [shouldDispatchRoutine, ht, if_pos hlt, firstSend]
          constructor
          · intro _
            exact ⟨f, List.mem_cons_self f fs, t, ht, hlt⟩
          · intro _
            rfl
      · have hrest := routine_first_send stat locked fs
          (fun g hg => h g (List.mem_cons_of_mem f hg))
        have hstep : shouldDispatchRoutine stat locked (f :: fs) =
            shouldDispatchRoutine stat locked fs := by
          simp [shouldDispatchRoutine, ht, hlt]
        rw [hstep]
        refine ⟨hrest.1, hrest.2.trans ?_⟩
        constructor
        · intro ⟨g, hg, t2, ht2, hlt2⟩
          exact ⟨g, List.mem_cons_of_mem f hg, t2, ht2, hlt2⟩
        · intro ⟨g, hg, t2, ht2, hlt2⟩
          rcases List.mem_cons.mp hg with hgf | hgfs
          · subst hgf
            rw [ht] at ht2
            cases ht2
            exact absurd hlt2 hlt
          · exact ⟨g, hgfs, t2, ht2, hlt2⟩

/-- Claim C5: a task without `files` always dispatches; for a task with
`files` (all of which stat successfully) the decision is `true` exactly
when some declared file's stored timestamp is strictly below its current
modification time, and `false` exactly when every declared file's stored
timestamp is at least its current modification time. -/
theorem c5_dispatch_decision (stat : String → Except String Int) (l : Lockfile)
    (task : Task) :
    (task.files = [] → (shouldDispatch stat l task).1 = Except.ok true) ∧
    (task.files ≠ [] → (∀ f ∈ task.files, ∃ t, stat f = Except.ok t) →
      (((shouldDispatch stat l task).1 = Except.ok true ↔
          ∃ f ∈ task.files, ∃ t, stat f = Except.ok t ∧ GetCurrentProject l f < t) ∧
       ((shouldDispatch stat l task).1 = Except.ok false ↔
          ∀ f ∈ task.files, ∀ t, stat f = Except.ok t → t ≤ GetCurrentProject l f))) := by
  constructor
  · intro hnil
    simp [shouldDispatch, hnil]
  · intro hne hstat
    have h0 : ¬ task.files.length = 0 := by
      simpa [List.length_eq_zero] using hne
    have hr := routine_first_send stat (GetCurrentProject l) task.files hstat
    have hneg : (¬ ∃ f ∈ task.files, ∃ t, stat f = Except.ok t ∧
        GetCurrentProject l f < t) ↔
        ∀ f ∈ task.files, ∀ t, stat f = Except.ok t → t ≤ GetCurrentProject l f := by
      push_neg
      exact Iff.rfl
    rcases hr.1 with hd | hd
    · have hex := hr.2.mp hd
      constructor
      · simp only [shouldDispatch, h0, if_neg h0, hd]
        exact ⟨fun _ => hex, fun _ => rfl⟩
      · simp only [shouldDispatch, h0, if_neg h0, hd]
        constructor
        · intro hcon
          exact absurd hcon (by simp)
        · intro hall
          exact absurd (hneg.mpr hall) (by simp [hex])
    · have hnex : ¬ ∃ f ∈ task.files, ∃ t, stat f = Except.ok t ∧
          GetCurrentProject l f < t := by
        intro hex
        have := hr.2.mpr hex
        rw [hd] at this
        exact absurd this (by simp)
      constructor
      · simp only [shouldDispatch, h0, if_neg h0, hd]
        constructor
        · intro hcon
          exact absurd hcon (by simp)
        · intro hex
          exact absurd hex hnex
      · simp only [shouldDispatch, h0, if_neg h0, hd]
        exact ⟨fun _ => hneg.mp hnex, fun _ => rfl⟩

/-- Witness for `c5_dispatch_decision`: under `statC5` (mtime 5) and a
stored timestamp of 3 the decision is `true`; a task without files also
decides `true`. -/
theorem c5_witness :
    (shouldDispatch statC5 lockC5 taskC5).1 = Except.ok true ∧
    (shouldDispatch statC5 lockC5 tU).1 = Except.ok true := by
  constructor
  · exact ((c5_dispatch_decision statC5 lockC5 taskC5).2 (by decide)
      (fun f _ => ⟨5, rfl⟩)).1.mpr
      ⟨"a", by simp [taskC5], 5, rfl, by decide⟩
  · exact (c5_dispatch_decision statC5 lockC5 tU).1 rfl

/-- Claim C7 (corrected): in `Bootstrap` every `log.Fatal` is guarded by
`err != nil && !quiet`, so with quiet mode active a failing substitution
command does NOT abort startup — the error is discarded and Bootstrap
runs to completion; only with quiet mode inactive does a parse error
(e.g. a failing substitution inside `parseTasks`) abort startup with the
underlying process error. -/
theorem c7_quiet_swallows_parse_errors (os : OSModel)
    (yamlG : Except String GlobalCfg)
    (yamlT : Except String (List (String × Task)))
    (w : Except String Unit) (p : ParserState) :
    (∀ (cached : String) (e : String),
      Bootstrap os true cached yamlG yamlT w p ≠ BootResult.fatal e) ∧
    (∀ e : String,
      (parseGlobal os yamlG p).1 = Except.ok () →
      (parseTasks os yamlT (parseGlobal os yamlG p).2).1 = Except.error e →
      Bootstrap os false "" yamlG yamlT w p = BootResult.fatal e) := by
  constructor
  · intro cached e
    by_cases hc : cached = ""
    · subst hc
      rcases hg : parseGlobal os yamlG p with ⟨rg, p1⟩
      rcases ht : parseTasks os yamlT p1 with ⟨rt, p2⟩
      cases rg <;> cases rt <;> cases w <;>
        simp [Bootstrap, bootstrapAfterGlobal, bootstrapAfterTasks, hg, ht]
    · simp [Bootstrap, hc]
  · intro e hg ht
    rcases hgp : parseGlobal os yamlG p with ⟨rg, p1⟩
    rw [hgp] at hg ht
    simp only at hg ht
    subst hg
    rcases htp : parseTasks os yamlT p1 with ⟨rt, p2⟩
    rw [htp] at ht
    simp only at ht
    subst ht
    simp [Bootstrap, bootstrapAfterGlobal, hgp, htp]

/-- Witness for `c7_quiet_swallows_parse_errors`: with the failing
substitution of `yamlT7` under `osT`, quiet mode finishes Bootstrap
while non-quiet mode aborts with the process error. -/
theorem c7_witness :
    Bootstrap osT true "" yamlG7 yamlT7 (Except.ok ()) p0 ≠
      BootResult.fatal "exit status 1" ∧
    Bootstrap osT false "" yamlG7 yamlT7 (Except.ok ()) p0 =
      BootResult.fatal "exit status 1" := by
  have h := c7_quiet_swallows_parse_errors osT yamlG7 yamlT7 (Except.ok ()) p0
  exact ⟨h.1 "" "exit status 1", h.2 "exit status 1" (by decide) (by decide)⟩

/-- Claim C7, the claim as stated is false: the substitution command of
`yamlT7` fails while parsing (the parse step reports `exit status 1`),
yet with quiet mode active `Bootstrap` does not abort — it finishes
normally instead of "still aborting without diagnostic output". -/
theorem c7_counterexample :
    exceptIsError (parseTasks osT yamlT7
      (parseGlobal osT yamlG7 p0).2).1 = true ∧
    isFatal (Bootstrap osT true "" yamlG7 yamlT7 (Except.ok ()) p0) = false := by
  refine ⟨by decide, by decide⟩

/-- Claim C10: when resolving the `global.environment` mapping fails,
`parseGlobal` executes `return nil`: the caller sees success, and the
parser's `Global` field is left untouched (its zero value in the
Bootstrap flow) — neither the resolved environment nor the hook event
lists of the parsed document are stored. -/
theorem c10_parse_global_swallows_env_failure (os : OSModel) (g : GlobalCfg)
    (p : ParserState) (e : String)
    (h : (setEnvVariables os p.env g.environment).1 = Except.error e) :
    (parseGlobal os (Except.ok g) p).1 = Except.ok () ∧
    ((parseGlobal os (Except.ok g) p).2).global = p.global := by
  rcases hs : setEnvVariables os p.env g.environment with ⟨r, env2⟩
  rw [hs] at h
  simp only at h
  subst h
  simp [parseGlobal, hs]

/-- Witness for `c10_parse_global_swallows_env_failure` at the concrete
global section `g10` under `osT`. -/
theorem c10_witness :
    (parseGlobal osT (Except.ok g10) p0).1 = Except.ok () ∧
    ((parseGlobal osT (Except.ok g10) p0).2).global = p0.global :=
  c10_parse_global_swallows_env_failure osT g10 p0 "exit status 1" (by decide)

lemma lastCloseIdx_append_close (xs : List Char) :
    lastCloseIdx (xs ++ [')']) = some xs.length := by
  induction xs with
  | nil => rfl
  | cons x xs ih => simp [lastCloseIdx, ih]

lemma sysCmdScan_at_match (name : List Char) (h1 : name ≠ []) (h2 : '\n' ∉ name) :
    sysCmdScan ('$' :: '(' :: (name ++ [')'])) = some name := by
  have htw : (name ++ [')']).takeWhile (fun ch => !decide (ch = '\n')) = name ++ [')'] := by
    apply List.takeWhile_eq_self_iff.mpr
    intro x hx
    rcases List.mem_append.mp hx with hx1 | hx2
    · simp
      exact fun hc => h2 (hc ▸ hx1)
    · simp at hx2
      simp [hx2]
  have hlen : 1 ≤ name.length := List.length_pos.mpr h1
  simp [sysCmdScan, htw, lastCloseIdx_append_close, hlen, List.take_left]

lemma sysCmdScan_skip (c : Char) (h : ¬ c = '$') (cs : List Char) :
    sysCmdScan (c :: cs) = sysCmdScan cs := by
  simp [sysCmdScan, h]

lemma parseSystemCmd_echo (name : String) (h1 : name.data ≠ []) (h2 : '\n' ∉ name.data) :
    parseSystemCmd ("echo $(" ++ name ++ ")") =
      (String.mk ('$' :: '(' :: (name.data ++ [')'])), name) := by
  have hd : ("echo $(" ++ name ++ ")").data =
      'e' :: 'c' :: 'h' :: 'o' :: ' ' :: '$' :: '(' :: (name.data ++ [')']) := by
    simp [String.data_append]
  rw [parseSystemCmd, hd,
    sysCmdScan_skip 'e' (by decide), sysCmdScan_skip 'c' (by decide),
    sysCmdScan_skip 'h' (by decide), sysCmdScan_skip 'o' (by decide),
    sysCmdScan_skip ' ' (by decide), sysCmdScan_at_match name.data h1 h2]

lemma replaceAll_cons_miss (old new : List Char) (c : Char) (rest : List Char)
    (h : old.isPrefixOf (c :: rest) = false) :
    replaceAll old new (c :: rest) = c :: replaceAll old new rest := by
  unfold replaceAll
  simp [replaceAllFuel, h]

lemma replaceAll_self (old new : List Char) (h : old ≠ []) :
    replaceAll old new old = new := by
  unfold replaceAll
  cases old with
  | nil => exact absurd rfl h
  | cons c rest =>
      simp [replaceAllFuel, List.isPrefixOf_iff_prefix.mpr (List.prefix_refl (c :: rest)),
        List.drop_length]

lemma isPrefixOf_cons_ne (a b : Char) (as bs : List Char) (h : ¬ a = b) :
    (a :: as).isPrefixOf (b :: bs) = false := by
  simp [List.isPrefixOf, h]

/-- Claim C3 (corrected): when a run command (or file pattern) of the
form `echo $(NAME)` is resolved by the parser, the `$(NAME)` token is
replaced with the value of the environment variable `NAME` — by
`os.Getenv`, an environment lookup — not with the output of running
`NAME` as an OS process.  (Processes are spawned only for `env`-map
values, in `setEnvVariables`.) -/
theorem c3_substitution_is_env_lookup (getenv : String → String) (name : String)
    (h1 : name.data ≠ []) (h2 : '\n' ∉ name.data) :
    replaceEnvironmentVariables getenv ("echo $(" ++ name ++ ")") =
      "echo " ++ getenv name := by
  have hp := parseSystemCmd_echo name h1 h2
  have hraw_ne : String.mk ('$' :: '(' :: (name.data ++ [')'])) ≠ "" := by
    intro hcon
    have hnil : ('$' :: '(' :: (name.data ++ [')'])) = ([] : List Char) := by
      have := congrArg String.data hcon
      simp at this
    exact absurd hnil (by simp)
  have hname_ne : name ≠ "" := by
    intro hcon
    apply h1
    rw [hcon]
  rw [replaceEnvironmentVariables]
  simp only [hp]
  rw [if_pos ⟨hraw_ne, hname_ne⟩]
  rw [stringReplace]
  have hd : ("echo $(" ++ name ++ ")").data =
      'e' :: 'c' :: 'h' :: 'o' :: ' ' :: ('$' :: '(' :: (name.data ++ [')'])) := by
    simp [String.data_append]
  rw [hd]
  have hmiss : ∀ (b : Char) (bs : List Char), ¬ '$' = b →
      (('$' :: '(' :: (name.data ++ [')'])) : List Char).isPrefixOf (b :: bs) = false :=
    fun b bs hb => isPrefixOf_cons_ne '$' b _ bs hb
  rw [replaceAll_cons_miss _ _ _ _ (hmiss 'e' _ (by decide)),
    replaceAll_cons_miss _ _ _ _ (hmiss 'c' _ (by decide)),
    replaceAll_cons_miss _ _ _ _ (hmiss 'h' _ (by decide)),
    replaceAll_cons_miss _ _ _ _ (hmiss 'o' _ (by decide)),
    replaceAll_cons_miss _ _ _ _ (hmiss ' ' _ (by decide)),
    replaceAll_self _ _ (by simp)]
  show String.mk ('e' :: 'c' :: 'h' :: 'o' :: ' ' :: (getenv name).data) =
    "echo " ++ getenv name
  have hda : ("echo " ++ getenv name).data =
      'e' :: 'c' :: 'h' :: 'o' :: ' ' :: (getenv name).data := by
    simp [String.data_append]
  rw [← hda]

/-- Witness for `c3_substitution_is_env_lookup` at the environment
`getenvC3` (where `FOO` is `envval`). -/
theorem c3_witness :
    replaceEnvironmentVariables getenvC3 ("echo $(" ++ "FOO" ++ ")") =
      "echo " ++ getenvC3 "FOO" :=
  c3_substitution_is_env_lookup getenvC3 "FOO" (by decide) (by decide)

/-- Claim C3, the claim as stated is false: parsing the run command
`echo $(FOO)` with environment `FOO = envval` yields `echo envval`
(the environment lookup), whereas the spec's process-running resolution
(under an oracle whose command output is `cmdout`) would yield
`echo cmdout`. -/
theorem c3_counterexample :
    parseTasksGo osT [("FOO", "envval")] [("t", taskC3)] =
      (Except.ok ([("t", Task.mk "t" [] ["echo envval"] [])], []), [("FOO", "envval")]) ∧
    resolveSubstitutionSpec outC3 "echo $(FOO)" = "echo cmdout" ∧
    ("echo envval" : String) ≠ "echo cmdout" := by
  refine ⟨by decide, by decide, by decide⟩

end Goke
